import Mathlib

/-!
Shallow embedding of the reel-picks client-side state core:
the favorites store, the recently-viewed store, the reminders store,
the debounced search engine, and the reminder notification scheduler.
Every definition is translated from the TypeScript source
(useFavorites, useRecentlyViewed, useReminders, useMovieSearch,
NotificationService).  Persistent-storage writes are modelled by an
explicit success flag passed to each mutator, wall-clock time by an
explicit millisecond timestamp parameter, and JavaScript values by
plain Lean data (movie identifiers as a string-or-number sum type,
undefined optional arguments as Option).
-/

namespace ReelPicks

/-- Movie identifiers arrive as either a string or a number
(TypeScript type string | number in types/movie.ts). -/
inductive MovieId where
  | str (s : String)
  | num (n : Int)
deriving DecidableEq, Repr

/-- JavaScript String(id) coercion used by the stores for identifier
comparison. -/
def MovieId.toStr : MovieId → String
  | .str s => s
  | .num n => toString n

/-- JavaScript truthiness of an identifier: the empty string and the
number 0 are falsy. -/
def MovieId.truthy : MovieId → Bool
  | .str s => !(s = "")
  | .num n => !(n = 0)

/-- JavaScript strict equality (===) on string-or-number identifiers:
values of different runtime type are never strictly equal. -/
def jsStrictEq : MovieId → MovieId → Bool
  | .str a, .str b => a = b
  | .num a, .num b => a = b
  | _, _ => false

/-- Movie value object; only the fields the state core reads
(id and title) are modelled, the rest is opaque payload. -/
structure Movie where
  id : MovieId
  title : String
deriving DecidableEq, Repr

/-- JavaScript truthiness test performed by addFavorite:
movie, movie.id and movie.title must all be truthy. -/
def Movie.valid (m : Movie) : Bool :=
  m.id.truthy && !(m.title = "")

/-- StoredFavorite from useFavorites.ts: a movie with rating, optional
notes and an ISO date string. -/
structure StoredFavorite where
  movie : Movie
  rating : Int
  notes : Option String
  dateAdded : String
deriving DecidableEq, Repr

/-- Result of a favorites-store mutator: the new in-memory list, the
boolean returned to the caller, and whether the hook set its error
state (storage failure surfaced via setError). -/
structure FavResult where
  favorites : List StoredFavorite
  returned : Bool
  errorSet : Bool
deriving DecidableEq, Repr

/-- validateRating from useFavorites.ts: Number.isInteger(r) and
1 <= r <= 5 (integrality is implicit since ratings are modelled as
integers). -/
def validateRating (rating : Int) : Bool :=
  1 ≤ rating && rating ≤ 5

/-- Find the first favorite whose String(movie.id) equals the given
string and replace it by g applied to it; none when no entry matches.
Embeds the findIndex-then-copy-and-overwrite sequence of the source. -/
def updateFirst (g : StoredFavorite → StoredFavorite) :
    List StoredFavorite → String → Option (List StoredFavorite)
  | [], _ => none
  | f :: rest, midStr =>
    if f.movie.id.toStr = midStr then some (g f :: rest)
    else (updateFirst g rest midStr).map (fun rest2 => f :: rest2)

/-- Overwrite applied by addFavorite to an already-present entry: the
validated rating replaces the old one and notes are overwritten only
when explicitly provided (undefined preserves the prior value). -/
def reAddEntry (validRating : Int) (notes : Option String)
    (f : StoredFavorite) : StoredFavorite :=
  { f with rating := validRating,
           notes := match notes with
             | some n => some n
             | none => f.notes }

/-- addFavorite from useFavorites.ts.  saveOk models whether the
localStorage write succeeds.  Mirrors the source exactly: the movie is
validated, the rating falls back to 1 when invalid, an existing entry
(string-compared identifier) is updated in place with notes preserved
when the argument is undefined, and — as in the source — the updated
list is kept in memory even when the write fails (only the error flag
is set). -/
def addFavorite (favs : List StoredFavorite) (movie : Movie)
    (rating : Int) (notes : Option String) (dateAdded : String)
    (saveOk : Bool) : FavResult :=
  if !movie.valid then ⟨favs, false, false⟩
  else
    let validRating := if validateRating rating then rating else 1
    match updateFirst (reAddEntry validRating notes) favs movie.id.toStr with
    | some updated => ⟨updated, true, !saveOk⟩
    | none =>
      ⟨favs ++ [⟨movie, validRating, notes, dateAdded⟩], true, !saveOk⟩

/-- removeFavorite from useFavorites.ts: filters by string-compared
identifier; on write failure the original list is kept and the error
flag is set. -/
def removeFavorite (favs : List StoredFavorite) (movieId : MovieId)
    (saveOk : Bool) : FavResult :=
  let filtered := favs.filter (fun f => !(f.movie.id.toStr = movieId.toStr))
  if saveOk then ⟨filtered, true, false⟩ else ⟨favs, true, true⟩

/-- updateFavorite from useFavorites.ts: no-op when the movie is not a
favorite; when a rating is supplied and out of range the whole list is
returned unchanged (the notes update is not applied either); otherwise
rating and notes are applied to the matching entry and the write
failure path reverts to the original list. -/
def updateFavorite (favs : List StoredFavorite) (movieId : MovieId)
    (rating : Option Int) (notes : Option String) (saveOk : Bool) :
    FavResult :=
  if !(favs.any (fun f => f.movie.id.toStr = movieId.toStr)) then
    ⟨favs, true, false⟩
  else if (match rating with
           | some r => !validateRating r
           | none => false) then
    ⟨favs, true, false⟩
  else
    let g := fun f =>
      let f1 := match rating with
        | some r => { f with rating := r }
        | none => f
      match notes with
      | some n => { f1 with notes := some n }
      | none => f1
    match updateFirst g favs movieId.toStr with
    | some updated =>
      if saveOk then ⟨updated, true, false⟩ else ⟨favs, true, true⟩
    | none => ⟨favs, true, false⟩

/-- getFavorite from useFavorites.ts: first entry whose String(id)
matches. -/
def getFavorite (favs : List StoredFavorite) (movieId : MovieId) :
    Option StoredFavorite :=
  favs.find? (fun f => f.movie.id.toStr = movieId.toStr)

/-- isFavorite from useFavorites.ts. -/
def isFavorite (favs : List StoredFavorite) (movieId : MovieId) : Bool :=
  favs.any (fun f => f.movie.id.toStr = movieId.toStr)

/-- Number of entries in a favorites list whose identifier matches the
given one under string comparison. -/
def countWithId (favs : List StoredFavorite) (midStr : String) : Nat :=
  (favs.filter (fun f => f.movie.id.toStr = midStr)).length

/-- RecentlyViewedMovie from useRecentlyViewed.ts. -/
structure RecentlyViewedMovie where
  movie : Movie
  viewedAt : String
deriving DecidableEq, Repr

/-- MAX_RECENTLY_VIEWED from useRecentlyViewed.ts. -/
def MAX_RECENTLY_VIEWED : Nat := 5

/-- addRecentlyViewed from useRecentlyViewed.ts: drop any entry whose
identifier is strictly equal (JavaScript !== on the raw id, not the
string-normalized comparison the other stores use), prepend a fresh
entry, truncate to the newest 5. -/
def addRecentlyViewed (current : List RecentlyViewedMovie)
    (movie : Movie) (now : String) : List RecentlyViewedMovie :=
  let filtered := current.filter (fun item => !jsStrictEq item.movie.id movie.id)
  (⟨movie, now⟩ :: filtered).take MAX_RECENTLY_VIEWED

/-- Reminder from useReminders.ts; times are Unix milliseconds. -/
structure Reminder where
  movieId : MovieId
  movieTitle : String
  reminderTime : Int
  createdAt : Int
deriving DecidableEq, Repr

/-- Milliseconds in one hour. -/
def msPerHour : Int := 3600000

/-- Milliseconds in one civil day (the embedding models local time as
a uniform-day clock, so Date arithmetic over setDate and setHours
becomes integer arithmetic on milliseconds). -/
def msPerDay : Int := 86400000

/-- Index of the civil day containing a timestamp. -/
def dayIndex (t : Int) : Int := t / msPerDay

/-- Date.getDay() of a timestamp: 0 = Sunday … 6 = Saturday (the Unix
epoch day is a Thursday, weekday index 4). -/
def dayOfWeek (t : Int) : Int := (dayIndex t + 4) % 7

/-- Date.setHours(h, 0, 0, 0) applied to the day containing t: the
timestamp of hour h on that civil day. -/
def atHour (t : Int) (h : Int) : Int := dayIndex t * msPerDay + h * msPerHour

/-- calculateReminderTime from useReminders.ts.  The reminder option is
a runtime string switched on; customTime is the optional Date argument
as milliseconds; throws are modelled with Except. -/
def calculateReminderTime (option : String) (customTime : Option Int)
    (now : Int) : Except String Int :=
  if option = "1hour" then
    .ok (now + 60 * 60 * 1000)
  else if option = "tonight" then
    let tonight := atHour now 20
    .ok (if tonight ≤ now then tonight + msPerDay else tonight)
  else if option = "tomorrow" then
    .ok (atHour now 20 + msPerDay)
  else if option = "weekend" then
    let dow := dayOfWeek now
    let daysUntilSaturday := if dow = 0 then 6 else 6 - dow
    .ok (atHour now 20 + daysUntilSaturday * msPerDay)
  else if option = "custom" then
    match customTime with
    | none => .error "Custom time must be in the future"
    | some ct =>
      if ct ≤ now then .error "Custom time must be in the future"
      else .ok ct
  else
    .error "Invalid reminder option"

/-- addReminder from useReminders.ts: computes the reminder time (a
throw is caught and surfaced as false with the collection untouched),
replaces any existing reminder for the same string-compared identifier,
and reverts the in-memory list when the storage write fails (still
returning true, as the source does). -/
def addReminder (reminders : List Reminder) (movieId : MovieId)
    (movieTitle : String) (option : String) (customTime : Option Int)
    (now : Int) (saveOk : Bool) : List Reminder × Bool :=
  match calculateReminderTime option customTime now with
  | .error _ => (reminders, false)
  | .ok reminderTime =>
    let newReminder : Reminder := ⟨movieId, movieTitle, reminderTime, now⟩
    let filtered := reminders.filter
      (fun rem => !(rem.movieId.toStr = movieId.toStr))
    let updated := filtered ++ [newReminder]
    if saveOk then (updated, true) else (reminders, true)

/-- Structural-plus-expiry filter applied by loadRemindersFromStorage:
movieId, movieTitle and reminderTime must be truthy, and the reminder
must not be more than 60 seconds past due. -/
def reminderKept (now : Int) (rem : Reminder) : Bool :=
  if !rem.movieId.truthy || rem.movieTitle = "" || rem.reminderTime = 0 then
    false
  else
    now - 60000 < rem.reminderTime

/-- loadRemindersFromStorage from useReminders.ts, given the parsed
array and the current time: returns the surviving reminders and
whether the cleaned set was written back (which the source does exactly
when some entries were dropped). -/
def loadRemindersFromStorage (parsed : List Reminder) (now : Int) :
    List Reminder × Bool :=
  let validReminders := parsed.filter (reminderKept now)
  (validReminders, !(validReminders.length = parsed.length))

/-- SearchResponse from types/movie.ts. -/
structure SearchResponse where
  page : Int
  results : List Movie
  totalPages : Int
  totalResults : Int
deriving DecidableEq, Repr

/-- ApiError from api-client.ts (status, statusText, message); the
details payload is opaque and omitted. -/
structure ApiError where
  status : Int
  statusText : String
  message : String
deriving DecidableEq, Repr

/-- Outcome of the awaited searchMovies call inside performSearch:
either a response or a thrown error, already normalized to ApiError as
the catch block does. -/
inductive SearchOutcome where
  | success (response : SearchResponse)
  | failure (err : ApiError)
deriving DecidableEq, Repr

/-- In-memory state of the useMovieSearch hook: the React state cells
plus the two refs that survive across renders (the request-identity
counter and the last dispatched query). -/
structure SearchState where
  results : Option SearchResponse
  loading : Bool
  error : Option ApiError
  hasSearched : Bool
  currentRequestId : Nat
  lastQuery : String
deriving DecidableEq, Repr

/-- Initial state of the useMovieSearch hook. -/
def initialSearchState : SearchState :=
  ⟨none, false, none, false, 0, ""⟩

/-- JavaScript String.prototype.trim as used on the query: whitespace
stripped from both ends, modelled on the character list. -/
def jsTrim (s : String) : String :=
  ⟨((s.data.dropWhile Char.isWhitespace).reverse.dropWhile
      Char.isWhitespace).reverse⟩

/-- Synchronous prefix of performSearch from useMovieSearch.ts, up to
the await: trims the query, handles the empty and too-short cases
without touching the network, suppresses a duplicate of the in-flight
query, and otherwise allocates the next request id (returned as some)
and enters the loading state. -/
def performSearchStart (s : SearchState) (searchQuery : String)
    (minQueryLength : Nat) : SearchState × Option Nat :=
  let trimmedQuery := jsTrim searchQuery
  if trimmedQuery.length = 0 then
    ({ s with results := none, error := none, loading := false,
              hasSearched := false, lastQuery := "" }, none)
  else if trimmedQuery.length < minQueryLength then
    ({ s with results := none, error := none, loading := false }, none)
  else if trimmedQuery = s.lastQuery && s.loading then
    (s, none)
  else
    let requestId := s.currentRequestId + 1
    ({ s with currentRequestId := requestId, lastQuery := trimmedQuery,
              loading := true, error := none }, some requestId)

/-- Continuation of performSearch after the awaited call resolves: the
try/catch arms and the finally block, each guarded by the comparison
of the allocated request id against the current counter. -/
def performSearchResolve (s : SearchState) (requestId : Nat)
    (outcome : SearchOutcome) : SearchState :=
  let s1 :=
    if requestId = s.currentRequestId then
      match outcome with
      | .success response =>
        { s with results := some response, error := none, hasSearched := true }
      | .failure err =>
        { s with error := some err, results := none, hasSearched := true }
    else s
  if requestId = s1.currentRequestId then { s1 with loading := false } else s1

/-- In-memory state of the NotificationService singleton: the set of
already-triggered reminder keys and whether the platform notification
side effect is available (window defined, Notification API present and
permission granted are collapsed into one flag; the Notification
constructor is assumed not to throw). -/
structure NotificationState where
  permissionGranted : Bool
  triggeredReminders : List String
deriving DecidableEq, Repr

/-- Key under which a reminder is recorded in the triggered set:
String(movieId). -/
def reminderKey (rem : Reminder) : String := rem.movieId.toStr

/-- showNotification from the NotificationService: bails out without
side effects when the platform notification is unavailable; otherwise
shows the notification, records the key in the triggered set and fires
the trigger callback.  The returned flag reports whether the side
effects (notification plus callback) happened. -/
def showNotification (s : NotificationState) (rem : Reminder) :
    NotificationState × Bool :=
  if !s.permissionGranted then (s, false)
  else
    let key := reminderKey rem
    let triggered :=
      if s.triggeredReminders.contains key then s.triggeredReminders
      else key :: s.triggeredReminders
    ({ s with triggeredReminders := triggered }, true)

/-- checkReminders from the NotificationService: walks the reminder
list and calls showNotification for every reminder that is due
(reminderTime ≤ now) and not yet in the triggered set; returns the new
state and the reminders whose side effects fired, in order. -/
def checkReminders (s : NotificationState) (reminders : List Reminder)
    (now : Int) : NotificationState × List Reminder :=
  match reminders with
  | [] => (s, [])
  | rem :: rest =>
    if rem.reminderTime ≤ now &&
        !s.triggeredReminders.contains (reminderKey rem) then
      let step := showNotification s rem
      let tail := checkReminders step.1 rest now
      (tail.1, (if step.2 then [rem] else []) ++ tail.2)
    else
      checkReminders s rest now

/-- startChecking from the NotificationService runs checkReminders
immediately and then once per 30-second tick; a run of the scheduler
is therefore a sequence of checkReminders calls threaded through the
service state.  Each element of the schedule is the reminder list
visible at that tick paired with the tick time. -/
def runPolls (s : NotificationState)
    (polls : List (List Reminder × Int)) :
    NotificationState × List (List Reminder) :=
  match polls with
  | [] => (s, [])
  | (reminders, now) :: rest =>
    let step := checkReminders s reminders now
    let tail := runPolls step.1 rest
    (tail.1, step.2 :: tail.2)

/-- clearTriggered from the NotificationService: the explicit reset of
the triggered set. -/
def clearTriggered (s : NotificationState) : NotificationState :=
  { s with triggeredReminders := [] }

/-! Helper lemmas about the favorites store. -/

theorem updateFirst_none_of_no_match (g : StoredFavorite → StoredFavorite)
    (favs : List StoredFavorite) (mid : String)
    (h : ∀ f ∈ favs, f.movie.id.toStr ≠ mid) :
    updateFirst g favs mid = none := by
  induction favs with
  | nil => rfl
  | cons f rest ih =>
    have hf : f.movie.id.toStr ≠ mid := h f (List.mem_cons_self f rest)
    have hrest := ih (fun f2 hf2 => h f2 (List.mem_cons_of_mem f hf2))
    simp [updateFirst, hf, hrest]

theorem updateFirst_append_singleton (g : StoredFavorite → StoredFavorite)
    (favs : List StoredFavorite) (e : StoredFavorite) (mid : String)
    (h : ∀ f ∈ favs, f.movie.id.toStr ≠ mid)
    (he : e.movie.id.toStr = mid) :
    updateFirst g (favs ++ [e]) mid = some (favs ++ [g e]) := by
  induction favs with
  | nil => simp [updateFirst, he]
  | cons f rest ih =>
    have hf : f.movie.id.toStr ≠ mid := h f (List.mem_cons_self f rest)
    have hrest := ih (fun f2 hf2 => h f2 (List.mem_cons_of_mem f hf2))
    simp [updateFirst, hf, hrest]

theorem getFavorite_after_updateFirst (g : StoredFavorite → StoredFavorite)
    (favs : List StoredFavorite) (movieId : MovieId)
    (l2 : List StoredFavorite)
    (hg : ∀ f, (g f).movie = f.movie)
    (h : updateFirst g favs movieId.toStr = some l2) :
    ∃ f0, f0 ∈ favs ∧ getFavorite l2 movieId = some (g f0) := by
  induction favs generalizing l2 with
  | nil => cases h
  | cons f rest ih =>
    by_cases hf : f.movie.id.toStr = movieId.toStr
    · simp only [updateFirst, if_pos hf, Option.some.injEq] at h
      refine ⟨f, List.mem_cons_self f rest, ?_⟩
      subst h
      simp [getFavorite, List.find?_cons, hg, hf]
    · simp only [updateFirst, if_neg hf] at h
      rcases Option.map_eq_some'.mp h with ⟨rest2, hrest2, hl2⟩
      obtain ⟨f0, hf0, hfind⟩ := ih rest2 hrest2
      refine ⟨f0, List.mem_cons_of_mem f hf0, ?_⟩
      subst hl2
      simpa [getFavorite, List.find?_cons, hf] using hfind

theorem mem_of_mem_updateFirst (g : StoredFavorite → StoredFavorite)
    (favs : List StoredFavorite) (mid : String)
    (l2 : List StoredFavorite) (f2 : StoredFavorite)
    (h : updateFirst g favs mid = some l2) (hmem : f2 ∈ l2) :
    f2 ∈ favs ∨ ∃ f0, f0 ∈ favs ∧ f2 = g f0 := by
  induction favs generalizing l2 with
  | nil => cases h
  | cons f rest ih =>
    by_cases hf : f.movie.id.toStr = mid
    · simp only [updateFirst, if_pos hf, Option.some.injEq] at h
      subst h
      rcases List.mem_cons.mp hmem with rfl | hmem2
      · exact Or.inr ⟨f, List.mem_cons_self f rest, rfl⟩
      · exact Or.inl (List.mem_cons_of_mem f hmem2)
    · simp only [updateFirst, if_neg hf] at h
      rcases Option.map_eq_some'.mp h with ⟨rest2, hrest2, hl2⟩
      subst hl2
      rcases List.mem_cons.mp hmem with rfl | hmem2
      · exact Or.inl (List.mem_cons_self f2 rest)
      · rcases ih rest2 hrest2 hmem2 with h1 | ⟨f0, hf0, heq⟩
        · exact Or.inl (List.mem_cons_of_mem f h1)
        · exact Or.inr ⟨f0, List.mem_cons_of_mem f hf0, heq⟩

/-- C2: for every movie with a (truthy) identifier and title, calling
addFavorite twice for the same movie identifier — identifiers compared
as strings, so the second movie value may carry the identifier in the
other runtime type — yields exactly one entry for that identifier and
exactly one new entry overall, with the second call overwriting rating
(validated, falling back to 1 when out of range, per C3) and notes,
and the first call notes preserved when the second call passes notes
as undefined (none). -/
theorem favorites_idempotent_readd
    (favs : List StoredFavorite) (m1 m2 : Movie) (r1 r2 : Int)
    (n1 n2 : Option String) (d1 d2 : String) (sOk1 sOk2 : Bool)
    (hm1 : m1.valid = true) (hm2 : m2.valid = true)
    (hid : m2.id.toStr = m1.id.toStr)
    (hfresh : ∀ f ∈ favs, f.movie.id.toStr ≠ m1.id.toStr) :
    (addFavorite (addFavorite favs m1 r1 n1 d1 sOk1).favorites
        m2 r2 n2 d2 sOk2).favorites =
      favs ++ [⟨m1, if validateRating r2 then r2 else 1,
               (match n2 with | some n => some n | none => n1), d1⟩] ∧
    countWithId (addFavorite (addFavorite favs m1 r1 n1 d1 sOk1).favorites
        m2 r2 n2 d2 sOk2).favorites m1.id.toStr = 1 ∧
    (addFavorite (addFavorite favs m1 r1 n1 d1 sOk1).favorites
        m2 r2 n2 d2 sOk2).favorites.length = favs.length + 1 := by
  have h1 : ∀ g : StoredFavorite → StoredFavorite,
      updateFirst g favs m1.id.toStr = none :=
    fun g => updateFirst_none_of_no_match g favs m1.id.toStr hfresh
  have hstep1 : (addFavorite favs m1 r1 n1 d1 sOk1).favorites =
      favs ++ [⟨m1, if validateRating r1 then r1 else 1, n1, d1⟩] := by
    simp [addFavorite, hm1, h1]
  have h2 : ∀ g : StoredFavorite → StoredFavorite,
      updateFirst g (favs ++ [⟨m1, if validateRating r1 then r1 else 1, n1, d1⟩])
        m2.id.toStr =
      some (favs ++ [g ⟨m1, if validateRating r1 then r1 else 1, n1, d1⟩]) := by
    intro g
    rw [hid]
    exact updateFirst_append_singleton g favs _ m1.id.toStr hfresh rfl
  have hfinal : (addFavorite (addFavorite favs m1 r1 n1 d1 sOk1).favorites
      m2 r2 n2 d2 sOk2).favorites =
      favs ++ [⟨m1, if validateRating r2 then r2 else 1,
               (match n2 with | some n => some n | none => n1), d1⟩] := by
    rw [hstep1]
    simp only [addFavorite, hm2, Bool.not_true, Bool.false_eq_true, if_false, h2]
    simp [reAddEntry]
  refine ⟨hfinal, ?_, ?_⟩
  · rw [hfinal]
    unfold countWithId
    rw [List.filter_append]
    have hnil : favs.filter
        (fun f => decide (f.movie.id.toStr = m1.id.toStr)) = [] := by
      rw [List.filter_eq_nil_iff]
      intro f hf
      simp [hfresh f hf]
    simp [hnil]
  · rw [hfinal]
    simp

/-- Witness for C2 at a concrete input: the movie 550 is added with
rating 5 and notes, then re-added through a string identifier with
rating 3 and undefined notes; one entry results, rating 3, notes kept. -/
theorem favorites_idempotent_readd_witness :
    (addFavorite (addFavorite [] ⟨.num 550, "Fight Club"⟩ 5 (some "keep")
        "d1" true).favorites ⟨.str "550", "Fight Club"⟩ 3 none "d2"
        true).favorites =
      [] ++ [⟨⟨.num 550, "Fight Club"⟩,
             if validateRating 3 then 3 else 1,
             (match (none : Option String) with
              | some n => some n
              | none => some "keep"), "d1"⟩] :=
  (favorites_idempotent_readd [] ⟨.num 550, "Fight Club"⟩
    ⟨.str "550", "Fight Club"⟩ 5 3 (some "keep") none "d1" "d2" true true
    (by decide) (by decide) (by decide) (by simp)).1

theorem no_match_of_updateFirst_none (g : StoredFavorite → StoredFavorite)
    (favs : List StoredFavorite) (mid : String)
    (h : updateFirst g favs mid = none) :
    ∀ f ∈ favs, f.movie.id.toStr ≠ mid := by
  induction favs with
  | nil => intro f hf; cases hf
  | cons f rest ih =>
    intro f2 hf2
    by_cases hf : f.movie.id.toStr = mid
    · simp [updateFirst, hf] at h
    · simp only [updateFirst, if_neg hf] at h
      rcases List.mem_cons.mp hf2 with rfl | hmem
      · exact hf
      · exact ih (Option.map_eq_none'.mp h) f2 hmem

theorem validateRating_bounds (r : Int) (h : validateRating r = true) :
    1 ≤ r ∧ r ≤ 5 := by
  simpa [validateRating] using h

theorem clamped_rating_bounds (r : Int) :
    1 ≤ (if validateRating r then r else 1) ∧
    (if validateRating r then r else 1) ≤ 5 := by
  by_cases h : validateRating r = true
  · rw [if_pos h]
    exact validateRating_bounds r h
  · rw [if_neg (by simp [h])]
    exact ⟨le_refl 1, by norm_num⟩

/-- C3: addFavorite stores the rating itself when it is an integer in
{1,…,5} and 1 otherwise, so the entry stored for the movie always has
a rating in {1,…,5} (and the invariant is preserved for every other
entry); updateFavorite with an out-of-range rating leaves the whole
collection, hence the stored entry, unchanged. -/
theorem favorites_rating_bounds
    (favs : List StoredFavorite) (movie : Movie) (r : Int)
    (notes : Option String) (d : String) (sOk : Bool)
    (movieId2 : MovieId) (r2 : Int) (notes2 : Option String) (sOk2 : Bool)
    (hm : movie.valid = true) (hr2 : validateRating r2 = false) :
    (∃ f, getFavorite (addFavorite favs movie r notes d sOk).favorites
        movie.id = some f ∧
       f.rating = (if validateRating r then r else 1) ∧
       1 ≤ f.rating ∧ f.rating ≤ 5) ∧
    ((∀ f ∈ favs, 1 ≤ f.rating ∧ f.rating ≤ 5) →
       ∀ f ∈ (addFavorite favs movie r notes d sOk).favorites,
         1 ≤ f.rating ∧ f.rating ≤ 5) ∧
    updateFavorite favs movieId2 (some r2) notes2 sOk2 = ⟨favs, true, false⟩ := by
  refine ⟨?_, ?_, ?_⟩
  · cases hu : updateFirst
        (reAddEntry (if validateRating r then r else 1) notes)
        favs movie.id.toStr with
    | none =>
      have hnm := no_match_of_updateFirst_none _ favs movie.id.toStr hu
      have hfind : favs.find?
          (fun f => decide (f.movie.id.toStr = movie.id.toStr)) = none := by
        rw [List.find?_eq_none]
        intro f hf
        simp [hnm f hf]
      refine ⟨⟨movie, if validateRating r then r else 1, notes, d⟩, ?_, rfl, ?_⟩
      · simp only [addFavorite, hm, Bool.not_true, Bool.false_eq_true, if_false, hu]
        simp [getFavorite, List.find?_append, hfind]
      · exact clamped_rating_bounds r
    | some l2 =>
      obtain ⟨f0, hf0, hget⟩ := getFavorite_after_updateFirst
        (reAddEntry (if validateRating r then r else 1) notes) favs movie.id l2
        (fun _ => rfl) hu
      refine ⟨reAddEntry (if validateRating r then r else 1) notes f0,
        ?_, rfl, clamped_rating_bounds r⟩
      simp only [addFavorite, hm, Bool.not_true, Bool.false_eq_true, if_false, hu]
      exact hget
  · intro hall f hf
    revert hf
    simp only [addFavorite, hm, Bool.not_true, Bool.false_eq_true, if_false]
    cases hu : updateFirst
        (reAddEntry (if validateRating r then r else 1) notes)
        favs movie.id.toStr with
    | none =>
      intro hf
      rcases List.mem_append.mp hf with h1 | h1
      · exact hall f h1
      · rcases List.mem_singleton.mp h1 with rfl
        exact clamped_rating_bounds r
    | some l2 =>
      intro hf
      rcases mem_of_mem_updateFirst _ favs movie.id.toStr l2 f hu hf with
        h1 | ⟨f0, hf0, rfl⟩
      · exact hall f h1
      · exact clamped_rating_bounds r
  · by_cases hany : favs.any (fun f => decide (f.movie.id.toStr = movieId2.toStr))
    · simp [updateFavorite, hany, hr2]
    · simp [updateFavorite, hany]

/-- Witness for C3 at a concrete input: adding movie 550 with the
out-of-range rating 9 stores rating 1; updating favorite 550 with
rating 0 leaves the collection unchanged. -/
theorem favorites_rating_bounds_witness :
    (∃ f, getFavorite (addFavorite [] ⟨.num 550, "Fight Club"⟩ 9 none "d1"
        true).favorites (MovieId.num 550) = some f ∧
       f.rating = (if validateRating 9 then 9 else 1) ∧
       1 ≤ f.rating ∧ f.rating ≤ 5) ∧
    updateFavorite [⟨⟨.num 550, "Fight Club"⟩, 5, none, "d1"⟩]
        (.num 550) (some 0) none true =
      ⟨[⟨⟨.num 550, "Fight Club"⟩, 5, none, "d1"⟩], true, false⟩ := by
  have h1 := favorites_rating_bounds [] ⟨.num 550, "Fight Club"⟩ 9 none "d1"
    true (.num 550) 0 none true (by decide) (by decide)
  have h2 := favorites_rating_bounds [⟨⟨.num 550, "Fight Club"⟩, 5, none, "d1"⟩]
    ⟨.num 550, "Fight Club"⟩ 9 none "d1" true (.num 550) 0 none true
    (by decide) (by decide)
  exact ⟨h1.1, h2.2.2⟩

/-- C4: the claim that every store mutation leaves the in-memory
collection unchanged when the storage write fails is violated by
addFavorite, which keeps the updated list in memory (and only sets the
error flag) when the write fails; removeFavorite and addReminder do
revert, as the claim says. -/
theorem addFavorite_write_failure_partial_commit :
    (addFavorite [] ⟨.num 550, "Fight Club"⟩ 5 none "d1" false).favorites ≠
      ([] : List StoredFavorite) ∧
    (addFavorite [] ⟨.num 550, "Fight Club"⟩ 5 none "d1" false).favorites =
      [⟨⟨.num 550, "Fight Club"⟩, 5, none, "d1"⟩] ∧
    (addFavorite [] ⟨.num 550, "Fight Club"⟩ 5 none "d1" false).errorSet =
      true ∧
    (removeFavorite [⟨⟨.num 550, "Fight Club"⟩, 5, none, "d1"⟩] (.num 550)
        false).favorites = [⟨⟨.num 550, "Fight Club"⟩, 5, none, "d1"⟩] ∧
    (addReminder [] (.num 550) "Fight Club" "1hour" none 0 false).1 =
      ([] : List Reminder) := by
  refine ⟨by decide, by decide, by decide, by decide, ?_⟩
  simp [addReminder, calculateReminderTime]

/-- C5: addReminder with option custom and a customTime that is missing
or not strictly in the future returns false and leaves the collection
unchanged, and likewise when the option is not one of the five
recognized values. -/
theorem reminders_invalid_inputs_rejected
    (reminders : List Reminder) (movieId : MovieId) (movieTitle : String)
    (customTime : Option Int) (now : Int) (saveOk : Bool) (option : String) :
    ((∀ ct, customTime = some ct → ct ≤ now) →
       addReminder reminders movieId movieTitle "custom" customTime now saveOk
         = (reminders, false)) ∧
    (option ≠ "1hour" → option ≠ "tonight" → option ≠ "tomorrow" →
     option ≠ "weekend" → option ≠ "custom" →
       addReminder reminders movieId movieTitle option customTime now saveOk
         = (reminders, false)) := by
  constructor
  · intro hct
    cases customTime with
    | none => simp [addReminder, calculateReminderTime]
    | some ct =>
      have hle : ct ≤ now := hct ct rfl
      simp [addReminder, calculateReminderTime, hle]
  · intro h1 h2 h3 h4 h5
    simp [addReminder, calculateReminderTime, h1, h2, h3, h4, h5]

/-- Witness for C5 at a concrete input: a custom reminder for a past
instant and a reminder with an unrecognized option are both rejected
without touching the collection. -/
theorem reminders_invalid_inputs_rejected_witness :
    addReminder [] (.num 550) "Fight Club" "custom" (some 5) 10 true
      = ([], false) ∧
    addReminder [] (.num 550) "Fight Club" "soon" (some 5) 10 true
      = ([], false) := by
  have h := reminders_invalid_inputs_rejected [] (.num 550) "Fight Club"
    (some 5) 10 true "soon"
  refine ⟨h.1 ?_, h.2 (by decide) (by decide) (by decide) (by decide)
    (by decide)⟩
  intro ct hct
  injection hct with h2
  omega

/-- C6: the weekend option computes 20:00 of the day reached by the
days-until-Saturday offset — 6 days ahead on Sunday, 6 minus the
weekday index otherwise — which always lands on a Saturday; when today
is already Saturday the offset is 0 and the reminder is for today at
20:00, not the next Saturday.  (Local time is modelled as a uniform
86400000 ms day.) -/
theorem weekend_reminder_time (now : Int) (customTime : Option Int) :
    calculateReminderTime "weekend" customTime now =
      .ok (atHour now 20 +
        (if dayOfWeek now = 0 then 6 else 6 - dayOfWeek now) * msPerDay) ∧
    dayOfWeek (atHour now 20 +
        (if dayOfWeek now = 0 then 6 else 6 - dayOfWeek now) * msPerDay) = 6 ∧
    (atHour now 20 +
        (if dayOfWeek now = 0 then 6 else 6 - dayOfWeek now) * msPerDay) -
      dayIndex (atHour now 20 +
        (if dayOfWeek now = 0 then 6 else 6 - dayOfWeek now) * msPerDay) *
        msPerDay = 20 * msPerHour ∧
    (dayOfWeek now = 6 →
      calculateReminderTime "weekend" customTime now = .ok (atHour now 20)) := by
  refine ⟨by simp [calculateReminderTime], ?_, ?_, ?_⟩
  · simp only [dayOfWeek, dayIndex, atHour, msPerDay, msPerHour]
    split <;> omega
  · simp only [dayOfWeek, dayIndex, atHour, msPerDay, msPerHour]
    split <;> omega
  · intro h6
    simp [calculateReminderTime, h6, msPerDay]

/-- Witness for C6 at a concrete input: a Saturday afternoon (uniform
day 2 of the epoch is a Saturday) yields a reminder the same day at
20:00. -/
theorem weekend_reminder_time_witness :
    calculateReminderTime "weekend" none (2 * msPerDay + 5 * msPerHour) =
      .ok (atHour (2 * msPerDay + 5 * msPerHour) 20) :=
  (weekend_reminder_time (2 * msPerDay + 5 * msPerHour) none).2.2.2
    (by decide)

/-- C7 counterexample: a structurally invalid reminder (empty title)
whose reminderTime is strictly in the future — hence well within the
60-second grace period — is nevertheless dropped by the load, so the
claim that every reminder within the grace period is kept is false as
stated. -/
theorem reminder_purge_claim_counterexample :
    (loadRemindersFromStorage [⟨.num 5, "", 2000000, 0⟩] 1000000).1 = [] ∧
    (2000000 : Int) > 1000000 ∧ (2000000 : Int) > 1000000 - 60000 := by
  decide

/-- C7 as amended: a reminder more than 60 seconds past due is always
absent from the next load, and a reminder within the grace period (or
in the future) is kept provided it also passes the structural
validation (truthy movieId, movieTitle and reminderTime); whenever an
element of the stored list fails the combined filter, the cleaned set
is re-persisted. -/
theorem reminder_expiry_purge
    (parsed : List Reminder) (now : Int) (rem : Reminder) :
    (rem ∈ parsed → now - rem.reminderTime > 60000 →
       rem ∉ (loadRemindersFromStorage parsed now).1) ∧
    (rem ∈ parsed → rem.movieId.truthy = true → rem.movieTitle ≠ "" →
       rem.reminderTime ≠ 0 → now - rem.reminderTime < 60000 →
       rem ∈ (loadRemindersFromStorage parsed now).1) ∧
    (rem ∈ parsed → reminderKept now rem = false →
       (loadRemindersFromStorage parsed now).2 = true) := by
  refine ⟨?_, ?_, ?_⟩
  · intro hmem hexp hin
    have hkept : reminderKept now rem = true :=
      (List.mem_filter.mp hin).2
    unfold reminderKept at hkept
    split at hkept
    · simp at hkept
    · simp only [decide_eq_true_eq] at hkept
      omega
  · intro hmem htr hti hrt hlt
    refine List.mem_filter.mpr ⟨hmem, ?_⟩
    unfold reminderKept
    rw [if_neg (by simp [htr, hti, hrt])]
    simp only [decide_eq_true_eq]
    omega
  · intro hmem hbad
    simp [loadRemindersFromStorage]
    exact ⟨rem, hmem, hbad⟩

/-- Witness for C7 at a concrete input: with one reminder expired more
than a minute ago and one due in the future, the load drops the first,
keeps the second, and re-persists. -/
theorem reminder_expiry_purge_witness :
    (⟨.num 1, "A", 1000, 0⟩ : Reminder) ∉
      (loadRemindersFromStorage
        [⟨.num 1, "A", 1000, 0⟩, ⟨.num 2, "B", 2000000, 0⟩] 1000000).1 ∧
    (⟨.num 2, "B", 2000000, 0⟩ : Reminder) ∈
      (loadRemindersFromStorage
        [⟨.num 1, "A", 1000, 0⟩, ⟨.num 2, "B", 2000000, 0⟩] 1000000).1 ∧
    (loadRemindersFromStorage
        [⟨.num 1, "A", 1000, 0⟩, ⟨.num 2, "B", 2000000, 0⟩] 1000000).2
      = true := by
  have h1 := reminder_expiry_purge
    [⟨.num 1, "A", 1000, 0⟩, ⟨.num 2, "B", 2000000, 0⟩] 1000000
    ⟨.num 1, "A", 1000, 0⟩
  have h2 := reminder_expiry_purge
    [⟨.num 1, "A", 1000, 0⟩, ⟨.num 2, "B", 2000000, 0⟩] 1000000
    ⟨.num 2, "B", 2000000, 0⟩
  refine ⟨h1.1 (by decide) (by decide), ?_, h1.2.2 (by decide) (by decide)⟩
  exact h2.2.1 (by decide) (by decide) (by decide) (by decide) (by decide)

theorem jsStrictEq_self (a : MovieId) : jsStrictEq a a = true := by
  cases a <;> simp [jsStrictEq]

theorem jsStrictEq_symm (a b : MovieId) : jsStrictEq a b = jsStrictEq b a := by
  cases a <;> cases b <;> simp [jsStrictEq, eq_comm]

/-- C8 counterexample: the recently-viewed store compares identifiers
with JavaScript strict equality, not as strings, so re-adding movie
550 through a string identifier duplicates the numeric-id entry: the
store then holds two entries whose identifiers coincide as strings,
refuting the claim as stated. -/
theorem recently_viewed_claim_counterexample :
    (addRecentlyViewed [⟨⟨.num 550, "Fight Club"⟩, "t0"⟩]
        ⟨.str "550", "Fight Club"⟩ "t1").length = 2 ∧
    ((addRecentlyViewed [⟨⟨.num 550, "Fight Club"⟩, "t0"⟩]
        ⟨.str "550", "Fight Club"⟩ "t1").map
      (fun i => i.movie.id.toStr)) = ["550", "550"] := by
  decide

/-- C8 as amended: identifier comparison in the recently-viewed store
is JavaScript strict equality, so under strict identifier equality the
claim holds: adding a movie moves its entry to position 0 with the new
timestamp without duplicating (exactly one strictly-matching entry
remains), every other surviving entry comes from the old list and has
a different identifier, the length never exceeds 5, and at-most-one-
entry-per-identifier is preserved — while a numeric-versus-string
drift of the same identifier creates a duplicate (see the
counterexample). -/
theorem recently_viewed_readd_front
    (current : List RecentlyViewedMovie) (movie : Movie) (now : String) :
    (addRecentlyViewed current movie now).head? = some ⟨movie, now⟩ ∧
    ((addRecentlyViewed current movie now).filter
        (fun i => jsStrictEq i.movie.id movie.id)).length = 1 ∧
    (addRecentlyViewed current movie now).length ≤ 5 ∧
    (∀ i ∈ addRecentlyViewed current movie now,
       i = ⟨movie, now⟩ ∨
         (i ∈ current ∧ jsStrictEq i.movie.id movie.id = false)) ∧
    (current.Pairwise (fun a b => jsStrictEq a.movie.id b.movie.id = false) →
       (addRecentlyViewed current movie now).Pairwise
         (fun a b => jsStrictEq a.movie.id b.movie.id = false)) := by
  have hmemf : ∀ i ∈ current.filter
      (fun item => !jsStrictEq item.movie.id movie.id),
      i ∈ current ∧ jsStrictEq i.movie.id movie.id = false := by
    intro i hi
    have h := List.mem_filter.mp hi
    exact ⟨h.1, by simpa using h.2⟩
  refine ⟨?_, ?_, ?_, ?_, ?_⟩
  · simp [addRecentlyViewed, MAX_RECENTLY_VIEWED, List.head?_take]
  · have htail : ((current.filter
        (fun item => !jsStrictEq item.movie.id movie.id)).take 4).filter
        (fun i => jsStrictEq i.movie.id movie.id) = [] := by
      rw [List.filter_eq_nil_iff]
      intro i hi
      have := (hmemf i (List.mem_of_mem_take hi)).2
      simp [this]
    simp [addRecentlyViewed, MAX_RECENTLY_VIEWED, List.take_succ_cons,
      List.filter_cons, jsStrictEq_self, htail]
  · simp [addRecentlyViewed, MAX_RECENTLY_VIEWED, List.length_take_le]
  · intro i hi
    simp only [addRecentlyViewed, MAX_RECENTLY_VIEWED] at hi
    have hi2 := List.mem_of_mem_take hi
    rcases List.mem_cons.mp hi2 with rfl | hmem
    · exact Or.inl rfl
    · exact Or.inr (hmemf i hmem)
  · intro hp
    refine List.Pairwise.sublist (List.take_sublist _ _) ?_
    refine List.pairwise_cons.mpr ⟨?_, List.Pairwise.filter _ hp⟩
    intro b hb
    rw [jsStrictEq_symm]
    exact (hmemf b hb).2

/-- Witness for C8 at a concrete input: re-adding movie 550 (numeric
identifier both times) to a two-entry store moves it to the front
without duplicating. -/
theorem recently_viewed_readd_front_witness :
    (addRecentlyViewed [⟨⟨.num 9, "Up"⟩, "t0"⟩, ⟨⟨.num 550, "Fight Club"⟩,
        "t0"⟩] ⟨.num 550, "Fight Club"⟩ "t1").head? =
      some ⟨⟨.num 550, "Fight Club"⟩, "t1"⟩ ∧
    (([⟨⟨.num 9, "Up"⟩, "t0"⟩, ⟨⟨.num 550, "Fight Club"⟩, "t0"⟩] :
        List RecentlyViewedMovie).Pairwise
        (fun a b => jsStrictEq a.movie.id b.movie.id = false) →
      (addRecentlyViewed [⟨⟨.num 9, "Up"⟩, "t0"⟩, ⟨⟨.num 550, "Fight Club"⟩,
          "t0"⟩] ⟨.num 550, "Fight Club"⟩ "t1").Pairwise
        (fun a b => jsStrictEq a.movie.id b.movie.id = false)) := by
  have h := recently_viewed_readd_front
    [⟨⟨.num 9, "Up"⟩, "t0"⟩, ⟨⟨.num 550, "Fight Club"⟩, "t0"⟩]
    ⟨.num 550, "Fight Club"⟩ "t1"
  exact ⟨h.1, h.2.2.2.2⟩

/-- C9: adding six movies with pairwise strictly-distinct identifiers
to an empty recently-viewed store leaves exactly the five most
recently added, most-recent-first, and no surviving entry carries the
identifier of the first-added movie; in particular the length is 5. -/
theorem recently_viewed_bound
    (m1 m2 m3 m4 m5 m6 : Movie) (t1 t2 t3 t4 t5 t6 : String)
    (h12 : jsStrictEq m1.id m2.id = false)
    (h13 : jsStrictEq m1.id m3.id = false)
    (h14 : jsStrictEq m1.id m4.id = false)
    (h15 : jsStrictEq m1.id m5.id = false)
    (h16 : jsStrictEq m1.id m6.id = false)
    (h23 : jsStrictEq m2.id m3.id = false)
    (h24 : jsStrictEq m2.id m4.id = false)
    (h25 : jsStrictEq m2.id m5.id = false)
    (h26 : jsStrictEq m2.id m6.id = false)
    (h34 : jsStrictEq m3.id m4.id = false)
    (h35 : jsStrictEq m3.id m5.id = false)
    (h36 : jsStrictEq m3.id m6.id = false)
    (h45 : jsStrictEq m4.id m5.id = false)
    (h46 : jsStrictEq m4.id m6.id = false)
    (h56 : jsStrictEq m5.id m6.id = false) :
    addRecentlyViewed (addRecentlyViewed (addRecentlyViewed
      (addRecentlyViewed (addRecentlyViewed (addRecentlyViewed [] m1 t1)
        m2 t2) m3 t3) m4 t4) m5 t5) m6 t6 =
      [⟨m6, t6⟩, ⟨m5, t5⟩, ⟨m4, t4⟩, ⟨m3, t3⟩, ⟨m2, t2⟩] ∧
    ∀ i ∈ addRecentlyViewed (addRecentlyViewed (addRecentlyViewed
      (addRecentlyViewed (addRecentlyViewed (addRecentlyViewed [] m1 t1)
        m2 t2) m3 t3) m4 t4) m5 t5) m6 t6,
      jsStrictEq i.movie.id m1.id = false := by
  have heq : addRecentlyViewed (addRecentlyViewed (addRecentlyViewed
      (addRecentlyViewed (addRecentlyViewed (addRecentlyViewed [] m1 t1)
        m2 t2) m3 t3) m4 t4) m5 t5) m6 t6 =
      [⟨m6, t6⟩, ⟨m5, t5⟩, ⟨m4, t4⟩, ⟨m3, t3⟩, ⟨m2, t2⟩] := by
    simp [addRecentlyViewed, MAX_RECENTLY_VIEWED, List.filter_cons,
      h12, h13, h14, h15, h16, h23, h24, h25, h26, h34, h35, h36,
      h45, h46, h56]
  refine ⟨heq, ?_⟩
  intro i hi
  rw [heq] at hi
  have hsym : ∀ a b : MovieId, jsStrictEq a b = false →
      jsStrictEq b a = false := by
    intro a b h
    rw [jsStrictEq_symm]
    exact h
  simp only [List.mem_cons, List.not_mem_nil, or_false] at hi
  rcases hi with rfl | rfl | rfl | rfl | rfl
  · exact hsym _ _ h16
  · exact hsym _ _ h15
  · exact hsym _ _ h14
  · exact hsym _ _ h13
  · exact hsym _ _ h12

/-- Witness for C9 at a concrete input: six distinct numeric
identifiers. -/
theorem recently_viewed_bound_witness :
    addRecentlyViewed (addRecentlyViewed (addRecentlyViewed
      (addRecentlyViewed (addRecentlyViewed (addRecentlyViewed []
        ⟨.num 1, "A"⟩ "t1") ⟨.num 2, "B"⟩ "t2") ⟨.num 3, "C"⟩ "t3")
        ⟨.num 4, "D"⟩ "t4") ⟨.num 5, "E"⟩ "t5") ⟨.num 6, "F"⟩ "t6" =
      [⟨⟨.num 6, "F"⟩, "t6"⟩, ⟨⟨.num 5, "E"⟩, "t5"⟩, ⟨⟨.num 4, "D"⟩, "t4"⟩,
       ⟨⟨.num 3, "C"⟩, "t3"⟩, ⟨⟨.num 2, "B"⟩, "t2"⟩] :=
  (recently_viewed_bound ⟨.num 1, "A"⟩ ⟨.num 2, "B"⟩ ⟨.num 3, "C"⟩
    ⟨.num 4, "D"⟩ ⟨.num 5, "E"⟩ ⟨.num 6, "F"⟩ "t1" "t2" "t3" "t4" "t5" "t6"
    (by decide) (by decide) (by decide) (by decide) (by decide) (by decide)
    (by decide) (by decide) (by decide) (by decide) (by decide) (by decide)
    (by decide) (by decide) (by decide)).1

theorem performSearchStart_alloc (s s2 : SearchState) (q : String)
    (m : Nat) (rid : Nat)
    (h : performSearchStart s q m = (s2, some rid)) :
    rid = s.currentRequestId + 1 ∧ s2.currentRequestId = rid := by
  dsimp only [performSearchStart] at h
  split at h
  · simp at h
  · split at h
    · simp at h
    · split at h
      · simp at h
      · injection h with h1 h2
        injection h2 with h2
        constructor
        · exact h2.symm
        · rw [← h1, ← h2]

/-- C1: only the response whose allocated request sequence number
equals the current highest-issued sequence number may update results,
error or loading (any other resolution leaves all three untouched);
and for two searches issued in order A then B, whichever order their
responses arrive in, the final visible results/error are those of the
response of B, never of A, and loading ends false. -/
theorem search_stale_response_suppression
    (s0 s1 s2 : SearchState) (qa qb : String) (m : Nat) (a b : Nat)
    (oA oB : SearchOutcome)
    (hA : performSearchStart s0 qa m = (s1, some a))
    (hB : performSearchStart s1 qb m = (s2, some b)) :
    (∀ (s : SearchState) (rid : Nat) (o : SearchOutcome),
       rid ≠ s.currentRequestId →
       (performSearchResolve s rid o).results = s.results ∧
       (performSearchResolve s rid o).error = s.error ∧
       (performSearchResolve s rid o).loading = s.loading) ∧
    ((performSearchResolve (performSearchResolve s2 a oA) b oB).results =
       (match oB with | .success r => some r | .failure _ => none) ∧
     (performSearchResolve (performSearchResolve s2 a oA) b oB).error =
       (match oB with | .success _ => none | .failure e => some e) ∧
     (performSearchResolve (performSearchResolve s2 a oA) b oB).loading
       = false) ∧
    ((performSearchResolve (performSearchResolve s2 b oB) a oA).results =
       (match oB with | .success r => some r | .failure _ => none) ∧
     (performSearchResolve (performSearchResolve s2 b oB) a oA).error =
       (match oB with | .success _ => none | .failure e => some e) ∧
     (performSearchResolve (performSearchResolve s2 b oB) a oA).loading
       = false) := by
  have hguard : ∀ (s : SearchState) (rid : Nat) (o : SearchOutcome),
      rid ≠ s.currentRequestId →
      (performSearchResolve s rid o).results = s.results ∧
      (performSearchResolve s rid o).error = s.error ∧
      (performSearchResolve s rid o).loading = s.loading := by
    intro s rid o hne
    simp [performSearchResolve, hne]
  obtain ⟨ha1, ha2⟩ := performSearchStart_alloc s0 s1 qa m a hA
  obtain ⟨hb1, hb2⟩ := performSearchStart_alloc s1 s2 qb m b hB
  have hane : a ≠ s2.currentRequestId := by omega
  have hsB : (performSearchResolve s2 b oB).results =
      (match oB with | .success r => some r | .failure _ => none) ∧
      (performSearchResolve s2 b oB).error =
      (match oB with | .success _ => none | .failure e => some e) ∧
      (performSearchResolve s2 b oB).loading = false := by
    cases oB <;> simp [performSearchResolve, hb2]
  refine ⟨hguard, ?_, ?_⟩
  · have hsA : performSearchResolve s2 a oA = s2 := by
      simp [performSearchResolve, hane]
    rw [hsA]
    exact hsB
  · have hcid : (performSearchResolve s2 b oB).currentRequestId =
        s2.currentRequestId := by
      cases oB <;> simp [performSearchResolve, hb2]
    have hane2 : a ≠ (performSearchResolve s2 b oB).currentRequestId := by
      omega
    obtain ⟨hr, he, hl⟩ := hguard (performSearchResolve s2 b oB) a oA hane2
    rw [hr, he, hl]
    exact hsB

/-- Witness for C1 at a concrete input: search "inc" (request 1) then
"inception" (request 2) from the initial state; resolving request 1
late leaves the state showing the response of request 2. -/
theorem search_stale_response_suppression_witness :
    (performSearchResolve (performSearchResolve
        ⟨none, true, none, false, 2, "inception"⟩ 1
        (.success ⟨1, [⟨.num 1, "Incredibles"⟩], 1, 1⟩)) 2
        (.success ⟨1, [⟨.num 27205, "Inception"⟩], 1, 1⟩)).results =
      some ⟨1, [⟨.num 27205, "Inception"⟩], 1, 1⟩ := by
  have h := search_stale_response_suppression initialSearchState
    ⟨none, true, none, false, 1, "inc"⟩
    ⟨none, true, none, false, 2, "inception"⟩ "inc" "inception" 1 1 2
    (.success ⟨1, [⟨.num 1, "Incredibles"⟩], 1, 1⟩)
    (.success ⟨1, [⟨.num 27205, "Inception"⟩], 1, 1⟩)
    (by decide) (by decide)
  exact h.2.1.1

theorem showNotification_contains (s : NotificationState) (rem : Reminder)
    (k : String) (h : s.triggeredReminders.contains k = true) :
    (showNotification s rem).1.triggeredReminders.contains k = true := by
  unfold showNotification
  split
  · exact h
  · dsimp only
    by_cases hc : s.triggeredReminders.contains (reminderKey rem) = true
    · rw [if_pos hc]
      exact h
    · rw [if_neg hc]
      simp only [List.contains_cons, Bool.or_eq_true]
      exact Or.inr h

theorem showNotification_perm (s : NotificationState) (rem : Reminder) :
    (showNotification s rem).1.permissionGranted = s.permissionGranted := by
  unfold showNotification
  split <;> rfl

theorem showNotification_records (s : NotificationState) (rem : Reminder)
    (hp : s.permissionGranted = true) :
    (showNotification s rem).1.triggeredReminders.contains (reminderKey rem)
      = true ∧ (showNotification s rem).2 = true := by
  unfold showNotification
  rw [if_neg (by simp [hp])]
  dsimp only
  refine ⟨?_, rfl⟩
  by_cases hc : s.triggeredReminders.contains (reminderKey rem) = true
  · rw [if_pos hc]
    exact hc
  · rw [if_neg hc]
    simp [List.contains_cons]

theorem checkReminders_mono (rems : List Reminder) (now : Int) (k : String) :
    ∀ s : NotificationState, s.triggeredReminders.contains k = true →
    (checkReminders s rems now).1.triggeredReminders.contains k = true := by
  induction rems with
  | nil => intro s h; exact h
  | cons r rest ih =>
    intro s h
    rw [checkReminders]
    split
    · exact ih _ (showNotification_contains s r k h)
    · exact ih s h

theorem checkReminders_perm (rems : List Reminder) (now : Int) :
    ∀ s : NotificationState,
    (checkReminders s rems now).1.permissionGranted = s.permissionGranted := by
  induction rems with
  | nil => intro s; rfl
  | cons r rest ih =>
    intro s
    rw [checkReminders]
    split
    · rw [ih]
      exact showNotification_perm s r
    · exact ih s

theorem checkReminders_no_refire (rems : List Reminder) (now : Int)
    (k : String) :
    ∀ s : NotificationState, s.triggeredReminders.contains k = true →
    ∀ r2 ∈ (checkReminders s rems now).2, reminderKey r2 ≠ k := by
  induction rems with
  | nil =>
    intro s h r2 hr2
    simp [checkReminders] at hr2
  | cons r rest ih =>
    intro s h r2 hr2
    rw [checkReminders] at hr2
    by_cases hc : (decide (r.reminderTime ≤ now) &&
        !s.triggeredReminders.contains (reminderKey r)) = true
    · rw [if_pos hc] at hr2
      dsimp only at hr2
      rcases List.mem_append.mp hr2 with h1 | h1
      · have hkr : s.triggeredReminders.contains (reminderKey r) = false := by
          rcases Bool.and_eq_true_iff.mp hc with ⟨_, hnc⟩
          simpa using hnc
        intro hk
        have hr2r : r2 = r := by
          revert h1
          split
          · intro h1
            simpa using h1
          · intro h1
            simp at h1
        rw [hr2r] at hk
        rw [hk] at hkr
        rw [h] at hkr
        cases hkr
      · exact ih _ (showNotification_contains s r k h) r2 h1
    · rw [if_neg hc] at hr2
      exact ih s h r2 hr2

theorem checkReminders_fires (rems : List Reminder) (now : Int) :
    ∀ s : NotificationState, s.permissionGranted = true →
    ∀ rem ∈ rems, rem.reminderTime ≤ now →
    s.triggeredReminders.contains (reminderKey rem) = false →
    (∃ r2 ∈ (checkReminders s rems now).2,
       reminderKey r2 = reminderKey rem) ∧
    (checkReminders s rems now).1.triggeredReminders.contains
      (reminderKey rem) = true := by
  induction rems with
  | nil => intro s hp rem hmem; cases hmem
  | cons r rest ih =>
    intro s hp rem hmem hdue hnc
    rcases List.mem_cons.mp hmem with rfl | hmem2
    · have hc : (decide (rem.reminderTime ≤ now) &&
          !s.triggeredReminders.contains (reminderKey rem)) = true := by
        rw [hnc]
        simp [hdue]
      rw [checkReminders, if_pos hc]
      dsimp only
      obtain ⟨hrec, hfired⟩ := showNotification_records s rem hp
      constructor
      · refine ⟨rem, ?_, rfl⟩
        simp [hfired]
      · exact checkReminders_mono rest now _ _ hrec
    · by_cases hc : (decide (r.reminderTime ≤ now) &&
          !s.triggeredReminders.contains (reminderKey r)) = true
      · rw [checkReminders, if_pos hc]
        dsimp only
        have hperm2 : (showNotification s r).1.permissionGranted = true := by
          rw [showNotification_perm]
          exact hp
        by_cases hkk : reminderKey r = reminderKey rem
        · obtain ⟨hrec, hfired⟩ := showNotification_records s r hp
          rw [hkk] at hrec
          constructor
          · exact ⟨r, by simp [hfired], hkk⟩
          · exact checkReminders_mono rest now _ _ hrec
        · have hnc2 : (showNotification s r).1.triggeredReminders.contains
              (reminderKey rem) = false := by
            unfold showNotification
            rw [if_neg (by simp [hp])]
            dsimp only
            by_cases hcc : s.triggeredReminders.contains (reminderKey r)
              = true
            · rw [if_pos hcc]
              exact hnc
            · rw [if_neg hcc]
              simp only [List.contains_cons, Bool.or_eq_false_iff,
                beq_eq_false_iff_ne, ne_eq]
              exact ⟨fun habs => hkk habs.symm, hnc⟩
          obtain ⟨⟨r2, hr2, hk2⟩, hrec⟩ := ih _ hperm2 rem hmem2 hdue hnc2
          refine ⟨⟨r2, ?_, hk2⟩, hrec⟩
          rw [List.mem_append]
          exact Or.inr hr2
      · rw [checkReminders, if_neg hc]
        exact ih s hp rem hmem2 hdue hnc

theorem runPolls_no_refire (polls : List (List Reminder × Int))
    (k : String) :
    ∀ s : NotificationState, s.triggeredReminders.contains k = true →
    ∀ fl ∈ (runPolls s polls).2, ∀ r2 ∈ fl, reminderKey r2 ≠ k := by
  induction polls with
  | nil =>
    intro s h fl hfl
    simp [runPolls] at hfl
  | cons p rest ih =>
    intro s h fl hfl r2 hr2
    obtain ⟨reminders, now⟩ := p
    rw [runPolls] at hfl
    dsimp only at hfl
    rcases List.mem_cons.mp hfl with rfl | hfl2
    · exact checkReminders_no_refire reminders now k s h r2 hr2
    · exact ih _ (checkReminders_mono reminders now k s h) fl hfl2 r2 hr2

/-- C10: with the platform notification available, every reminder that
is due (reminderTime ≤ now) and whose identifier key is not yet in the
triggered set gets a notification-plus-callback fired for its key and
has its key recorded as triggered by the check; a key already in the
triggered set is never fired again by any later check or any sequence
of later polls (and stays recorded), until an explicit reset or
restart clears the set. -/
theorem scheduler_fires_once
    (s : NotificationState) (reminders : List Reminder) (now : Int)
    (rem : Reminder) (k : String) (polls : List (List Reminder × Int)) :
    (s.permissionGranted = true → rem ∈ reminders →
     rem.reminderTime ≤ now →
     s.triggeredReminders.contains (reminderKey rem) = false →
       (∃ r2 ∈ (checkReminders s reminders now).2,
          reminderKey r2 = reminderKey rem) ∧
       (checkReminders s reminders now).1.triggeredReminders.contains
         (reminderKey rem) = true) ∧
    (s.triggeredReminders.contains k = true →
       (∀ r2 ∈ (checkReminders s reminders now).2, reminderKey r2 ≠ k) ∧
       (checkReminders s reminders now).1.triggeredReminders.contains k
         = true) ∧
    (s.triggeredReminders.contains k = true →
       ∀ fl ∈ (runPolls s polls).2, ∀ r2 ∈ fl, reminderKey r2 ≠ k) := by
  refine ⟨?_, ?_, ?_⟩
  · intro hp hmem hdue hnc
    exact checkReminders_fires reminders now s hp rem hmem hdue hnc
  · intro h
    exact ⟨checkReminders_no_refire reminders now k s h,
      checkReminders_mono reminders now k s h⟩
  · intro h
    exact runPolls_no_refire polls k s h

/-- Witness for C10 at a concrete input: a due reminder fires and is
recorded on the first check, and with its key recorded no later poll
fires it again. -/
theorem scheduler_fires_once_witness :
    ((∃ r2 ∈ (checkReminders ⟨true, []⟩ [⟨.num 550, "Fight Club", 100, 0⟩]
        1000).2, reminderKey r2 = reminderKey ⟨.num 550, "Fight Club", 100, 0⟩) ∧
      (checkReminders ⟨true, []⟩ [⟨.num 550, "Fight Club", 100, 0⟩]
        1000).1.triggeredReminders.contains
        (reminderKey ⟨.num 550, "Fight Club", 100, 0⟩) = true) ∧
    (∀ fl ∈ (runPolls ⟨true, ["550"]⟩
        [([⟨.num 550, "Fight Club", 100, 0⟩], 2000),
         ([⟨.num 550, "Fight Club", 100, 0⟩], 3000)]).2,
       ∀ r2 ∈ fl, reminderKey r2 ≠ "550") := by
  have h1 := scheduler_fires_once ⟨true, []⟩
    [⟨.num 550, "Fight Club", 100, 0⟩] 1000
    ⟨.num 550, "Fight Club", 100, 0⟩ "550" []
  have h2 := scheduler_fires_once ⟨true, ["550"]⟩
    [⟨.num 550, "Fight Club", 100, 0⟩] 2000
    ⟨.num 550, "Fight Club", 100, 0⟩ "550"
    [([⟨.num 550, "Fight Club", 100, 0⟩], 2000),
     ([⟨.num 550, "Fight Club", 100, 0⟩], 3000)]
  exact ⟨h1.1 (by decide) (by decide) (by decide) (by decide),
    h2.2.2 (by decide)⟩

end ReelPicks
